import Mathlib

/-! Verification of the gonut NUT-container demuxer (retailnext/gonut).

This file shallowly embeds the Go source of the demuxer:
byte sources are lists of naturals (each element one byte, values < 256 in
well-formed streams), uint64 arithmetic is Nat arithmetic reduced mod 2^64
where the Go code can wrap, int64 values are Int, and Go runtime faults
(nil dereference, out-of-range slice index) are an explicit .panic outcome.
Errors carried in the demuxer/packet state (the sticky err fields of
Demuxer and rawPacket in gonut.go) are Option Err values.
-/

namespace Gonut

/-- Error values produced by the demuxer.  io.EOF and io.ErrUnexpectedEOF are
both modelled as .eof (exhaustion of the byte source); the other
constructors model the distinct errors.New / fmt.Errorf values of the Go
source. -/
inductive Err where
  | eof : Err
  | varintOverflow : Err               -- errors.New("varint overflows uint64")
  | fileIDErr (inner : Err) : Err      -- fmt.Errorf("Error reading file id: %s", err)
  | secondMainHeader : Err             -- errors.New("Second Main header detected")
  | unknownStartCode (code : List Nat) : Err  -- fmt.Errorf("Unknown start code %v", ...)
  deriving Repr, DecidableEq

/-- Result of a computation that can reach a Go runtime fault (panic) or,
because the Go loop has no termination guarantee, run forever (modelled via
fuel exhaustion as .diverge). -/
inductive PRes (α : Type) where
  | ok : α → PRes α
  | panic : PRes α
  | diverge : PRes α
  deriving Repr

/-- 2^64, the uint64 modulus. -/
def U64 : Nat := 18446744073709551616

-- frame flag constants from the source (const block of the flags file)
def flagKey : Nat := 1
def flagEOR : Nat := 2
def flagCodedPts : Nat := 8
def flagStreamID : Nat := 16
def flagSizeMSB : Nat := 32
def flagChecksum : Nat := 64
def flagReserved : Nat := 128
def flagHeaderIdx : Nat := 1024
def flagMatchTime : Nat := 2048
def flagCoded : Nat := 4096
def flagInvalid : Nat := 8192

/-- readUvarint loop body: up to 9 bytes, accumulating
x = (x << 7) | (b & 0x7f), stopping at a byte with high bit clear.
Returns the partially accumulated value together with the error, exactly as
the Go function returns (x, err). -/
def readUvarintLoop : Nat → Nat → List Nat → Nat × Option Err × List Nat
  | 0, x, s => (x, some .varintOverflow, s)
  | _ + 1, x, [] => (x, some .eof, [])
  | fuel + 1, x, b :: rest =>
    let x' := ((x <<< 7) ||| (b &&& 0x7f)) % U64
    if b < 0x80 then (x', none, rest)
    else readUvarintLoop fuel x' rest

/-- readUvarint(r io.Reader) from gonut.go. -/
def readUvarint (s : List Nat) : Nat × Option Err × List Nat :=
  readUvarintLoop 9 0 s

/-- readVarint(r io.Reader) from gonut.go: u = readUvarint + 1 (uint64
increment), odd u gives -(u >> 1), even u gives u >> 1. -/
def readVarint (s : List Nat) : Int × Option Err × List Nat :=
  match readUvarint s with
  | (_, some e, rest) => (0, some e, rest)
  | (u, none, rest) =>
    let u' := (u + 1) % U64
    if u' &&& 1 ≠ 0 then ((-1) * ((u' >>> 1 : Nat) : Int), none, rest)
    else (((u' >>> 1 : Nat) : Int), none, rest)

/-!  The packet payload view: bufio.NewReader(io.LimitReader(d.r, size)).

A rawPacket models the *bufio.Reader over the LimitReader: `buffered` holds
bytes already pulled from the underlying source but not yet delivered,
`limit` is the LimitReader's remaining allowance (bytes not yet pulled),
and `err` is the packet's sticky error field.  The underlying source is
threaded separately as a List Nat; a bufio fill issues one Read that the
list-backed source answers in full, so a fill pulls
min(4096, limit, source length) bytes at once. -/

def bufSize : Nat := 4096

structure rawPacket where
  buffered : List Nat
  limit : Nat
  err : Option Err
  deriving Repr

/-- One byte through the buffered view (io.ReadFull(p.r, b[:1])): serve from
the buffer, or fill the buffer from the limited source first.  Returns none
at EOF (limit exhausted or source exhausted). -/
def rpRead1 (p : rawPacket) (s : List Nat) : Option Nat × rawPacket × List Nat :=
  match p.buffered with
  | b :: rest => (some b, { p with buffered := rest }, s)
  | [] =>
    match s.take (min bufSize (min p.limit s.length)) with
    | [] => (none, p, s)
    | b :: rest =>
      (some b,
       { p with buffered := rest, limit := p.limit - min bufSize (min p.limit s.length) },
       s.drop (min bufSize (min p.limit s.length)))

/-- readUvarint(p.r): the same 9-byte loop, reading through the packet's
buffered view. -/
def rpReadUvarintLoop : Nat → Nat → rawPacket → List Nat → Nat × Option Err × rawPacket × List Nat
  | 0, x, p, s => (x, some .varintOverflow, p, s)
  | fuel + 1, x, p, s =>
    match rpRead1 p s with
    | (none, p', s') => (x, some .eof, p', s')
    | (some b, p', s') =>
      if b < 0x80 then (((x <<< 7) ||| (b &&& 0x7f)) % U64, none, p', s')
      else rpReadUvarintLoop fuel (((x <<< 7) ||| (b &&& 0x7f)) % U64) p' s'

/-- (p *rawPacket) readUvarint(): sticky-error wrapper.  Returns the
partially accumulated value together with the updated packet, as the Go
method returns uint after recording the error in p.err. -/
def rawPacket.readUvarint (p : rawPacket) (s : List Nat) : Nat × rawPacket × List Nat :=
  if p.err.isSome then (0, p, s)
  else
    match rpReadUvarintLoop 9 0 p s with
    | (x, some e, p', s') => (x, { p' with err := some e }, s')
    | (x, none, p', s') => (x, p', s')

/-- (p *rawPacket) readVarint(): sticky-error wrapper around the signed
read; the underlying readVarint returns 0 on error. -/
def rawPacket.readVarint (p : rawPacket) (s : List Nat) : Int × rawPacket × List Nat :=
  if p.err.isSome then (0, p, s)
  else
    match rpReadUvarintLoop 9 0 p s with
    | (_, some e, p', s') => (0, { p' with err := some e }, s')
    | (u, none, p', s') =>
      let u' := (u + 1) % U64
      if u' &&& 1 ≠ 0 then ((-1) * ((u' >>> 1 : Nat) : Int), p', s')
      else (((u' >>> 1 : Nat) : Int), p', s')

/-- io.ReadFull(p.r, data) for a zero-initialised buffer of n bytes: on a
short read the remainder of the buffer keeps its zeros and eof is
reported, as make + io.ReadFull behave in Go. -/
def rpReadFullLoop : Nat → List Nat → rawPacket → List Nat → List Nat × Option Err × rawPacket × List Nat
  | 0, acc, p, s => (acc.reverse, none, p, s)
  | n + 1, acc, p, s =>
    match rpRead1 p s with
    | (none, p', s') => (acc.reverse ++ List.replicate (n + 1) 0, some .eof, p', s')
    | (some b, p', s') => rpReadFullLoop n (b :: acc) p' s'

/-- (p *rawPacket) readVarBytes(): length-prefixed byte block.  Mirrors the
Go method: the entry check, then the unchecked length read followed by an
unconditional ReadFull of that many bytes. -/
def rawPacket.readVarBytes (p : rawPacket) (s : List Nat) : List Nat × rawPacket × List Nat :=
  if p.err.isSome then ([], p, s)
  else
    let (byteCount, p, s) :=
      match rpReadUvarintLoop 9 0 p s with
      | (x, some e, p', s') => (x, { p' with err := some e }, s')
      | (x, none, p', s') => (x, p', s')
    match rpReadFullLoop byteCount [] p s with
    | (data, some e, p', s') => (data, { p' with err := some e }, s')
    | (data, none, p', s') => (data, p', s')

/-!  Main header decoding. -/

structure Rational where
  numerator : Nat := 0
  denominator : Nat := 0
  deriving Repr, DecidableEq

/-- One slot of the 256-entry frame dispatch table (frameInfo in gonut.go);
make([]frameInfo, 256) zero-initialises every field.  The Go struct has an
additional field streams that no code ever reads or writes (it stays at
its zero value for the lifetime of the table), so it is omitted from the
embedding. -/
structure frameInfo where
  flags : Nat := 0
  mul : Nat := 0
  lsb : Nat := 0
  ptsDelta : Int := 0
  reservedCount : Nat := 0
  matchTimeDelta : Int := 0
  headerIdx : Nat := 0
  streamID : Nat := 0
  deriving Repr, DecidableEq

/-- mainHeader from gonut.go; the 256-entry Frames slice is modelled as a
total map from slot index to entry (only indices 0..255 are ever written,
and a write beyond 255 is a .panic in the construction function). -/
structure mainHeader where
  Version : Nat
  MinorVersion : Nat
  StreamCount : Nat
  MaxDistance : Nat
  TimeBases : List Rational
  Frames : Nat → frameInfo
  Flags : Nat

/-- The match-time sentinel 1 - (1 << 62) used as initial value. -/
def matchUnset : Int := 1 - 4611686018427387904

def readTimeBases : Nat → rawPacket → List Nat → List Rational × rawPacket × List Nat
  | 0, p, s => ([], p, s)
  | n + 1, p, s =>
    let (num, p, s) := p.readUvarint s
    let (den, p, s) := p.readUvarint s
    let (rest, p, s) := readTimeBases n p s
    (⟨num, den⟩ :: rest, p, s)

/-- Seek past unknown record fields (the j in 8..fields loop). -/
def skipUvarints : Nat → rawPacket → List Nat → rawPacket × List Nat
  | 0, p, s => (p, s)
  | n + 1, p, s =>
    let (_, p, s) := p.readUvarint s
    skipUvarints n p s

/-- Seek past elision headers (readVarBytes, discarded). -/
def skipVarBytesN : Nat → rawPacket → List Nat → rawPacket × List Nat
  | 0, p, s => (p, s)
  | n + 1, p, s =>
    let (_, p, s) := p.readVarBytes s
    skipVarBytesN n p s

/-- Pointwise update of the frame table. -/
def upd (tbl : Nat → frameInfo) (k : Nat) (e : frameInfo) : Nat → frameInfo :=
  fun n => if n = k then e else tbl n

/-- The inner run-length fill loop of readMainHeader:
for j := 0; j < count; j, i = j+1, i+1 { ... }.
The first argument n is the remaining run length count - j, so the guard
j < count of the Go loop is the n = 0 / n + 1 case split, and the
recursion is structural (the function then evaluates inside the kernel).
At slot 0x4E ('N', decimal 78) only the flags field is forced to
flagInvalid and j is decremented before the loop post-statement, so the
slot consumes no run length (n is unchanged); since the guard j < count
still holds after the skip and slot 79 is neither the marker nor out of
range, the skip iteration is necessarily followed by the ordinary write
of slot 79 with the unchanged counter j, inlined here so that n decreases
on every recursive call.  A write at i >= 256 is the Go out-of-range
slice index: .panic. -/
def fillRun : Nat → (Nat → frameInfo) → Nat → Nat →
    Nat → Nat → Nat → Nat → Nat → Nat → Int → Int → PRes ((Nat → frameInfo) × Nat)
  | 0, tbl, i, _, _, _, _, _, _, _, _, _ => .ok (tbl, i)
  | n + 1, tbl, i, j, flags, stream, mul, size, res, headIdx, pts, mtd =>
    if i = 78 then
      fillRun n (upd (upd tbl 78 { tbl 78 with flags := flagInvalid }) 79
          { flags := flags, mul := mul, lsb := (size + j) % U64,
            ptsDelta := pts, reservedCount := res, matchTimeDelta := mtd,
            headerIdx := headIdx, streamID := stream }) 80 (j + 1)
        flags stream mul size res headIdx pts mtd
    else if i < 256 then
      fillRun n (upd tbl i
          { flags := flags, mul := mul, lsb := (size + j) % U64,
            ptsDelta := pts, reservedCount := res, matchTimeDelta := mtd,
            headerIdx := headIdx, streamID := stream }) (i + 1) (j + 1)
        flags stream mul size res headIdx pts mtd
    else .panic

/-- The index offset a slot k receives within a run that started at slot i
with run counter j: the counter is not advanced for the reserved slot 78,
so slots beyond it sit one unit lower. -/
def runOff (i j k : Nat) : Nat :=
  if i ≤ 78 ∧ 78 < k then j + (k - i) - 1 else j + (k - i)

/-- The values read by one record of the table loop. -/
structure RecordRead where
  flags : Nat
  pts : Int
  mul : Nat
  stream : Nat
  size : Nat
  res : Nat
  count : Nat
  mtd : Int
  headIdx : Nat
  p : rawPacket
  s : List Nat

/-- The per-record reads of the outer readMainHeader table loop: flags, a
field count, then (by strictly increasing field-count thresholds) pts,
mul, stream, size, res, an explicit run length count (default the wrapping
uint64 difference mul - size), mtd (the Go variable named match), headIdx,
and discarded padding fields. -/
def readRecord (pts : Int) (mul stream : Nat) (mtd : Int) (headIdx : Nat)
    (p : rawPacket) (s : List Nat) : RecordRead :=
  let (flags, p, s) := p.readUvarint s
  let (fields, p, s) := p.readUvarint s
  let (pts, p, s) := if fields > 0 then p.readVarint s else (pts, p, s)
  let (mul, p, s) := if fields > 1 then p.readUvarint s else (mul, p, s)
  let (stream, p, s) := if fields > 2 then p.readUvarint s else (stream, p, s)
  let (size, p, s) := if fields > 3 then p.readUvarint s else (0, p, s)
  let (res, p, s) := if fields > 4 then p.readUvarint s else (0, p, s)
  let (count, p, s) := if fields > 5 then p.readUvarint s
                       else ((mul + U64 - size) % U64, p, s)
  let (mtd, p, s) := if fields > 6 then p.readVarint s else (mtd, p, s)
  let (headIdx, p, s) := if fields > 7 then p.readUvarint s else (headIdx, p, s)
  let (p, s) := skipUvarints (fields - 8) p s
  ⟨flags, pts, mul, stream, size, res, count, mtd, headIdx, p, s⟩

/-- The outer record loop of readMainHeader (for i := 0; i < 256;).
pts, mul, stream, mtd and headIdx persist across records; flags, fields,
size, res and count are per-record.  The loop can fail to make progress
(count = 0), so fuel models divergence. -/
def readFrameTable (fuel : Nat) (tbl : Nat → frameInfo) (i : Nat)
    (pts : Int) (mul stream : Nat) (mtd : Int) (headIdx : Nat)
    (p : rawPacket) (s : List Nat) :
    PRes ((Nat → frameInfo) × rawPacket × List Nat) :=
  if i < 256 then
    match readRecord pts mul stream mtd headIdx p s with
    | ⟨flags, pts, mul, stream, size, res, count, mtd, headIdx, p, s⟩ =>
      match fillRun count tbl i 0 flags stream mul size res headIdx pts mtd with
      | .panic => .panic
      | .diverge => .diverge
      | .ok (tbl', i') =>
        match fuel with
        | 0 => .diverge
        | f + 1 => readFrameTable f tbl' i' pts mul stream mtd headIdx p s
  else .ok (tbl, p, s)

/-- (p *rawPacket) readMainHeader() from gonut.go. -/
def readMainHeader (fuel : Nat) (p : rawPacket) (s : List Nat) :
    PRes (Option mainHeader × rawPacket × List Nat) :=
  if p.err.isSome then .ok (none, p, s)
  else
    let (version, p, s) := p.readUvarint s
    let (minorVersion, p, s) := if version > 3 then p.readUvarint s else (0, p, s)
    let (streamCount, p, s) := p.readUvarint s
    let (maxDistance, p, s) := p.readUvarint s
    let (timeBaseCount, p, s) := p.readUvarint s
    let (timeBases, p, s) := readTimeBases timeBaseCount p s
    match readFrameTable fuel (fun _ => {}) 0 0 1 0 matchUnset 0 p s with
    | .panic => .panic
    | .diverge => .diverge
    | .ok (tbl, p, s) =>
      let (headerCount, p, s) := p.readUvarint s
      let hc := (headerCount + 1) % U64
      let (p, s) := skipVarBytesN (hc - 1) p s
      let (gflags, p, s) := p.readUvarint s
      .ok (some { Version := version, MinorVersion := minorVersion,
                  StreamCount := streamCount, MaxDistance := maxDistance,
                  TimeBases := timeBases, Frames := tbl, Flags := gflags }, p, s)

/-!  Stream headers, side data, info packets, sync points. -/

structure videoStreamHeader where
  width : Nat := 0
  height : Nat := 0
  sampleWidth : Nat := 0
  sampleHeight : Nat := 0
  colorSpaceType : Nat := 0
  deriving Repr, DecidableEq

structure auditStreamHeader where
  sampleRateNum : Nat := 0
  sampleRateDenom : Nat := 0
  channelCount : Nat := 0
  deriving Repr, DecidableEq

/-- streamHeader from gonut.go.  streamClass is the Go byte-typed
StreamClass, i.e. the uvarint truncated mod 256; the class-specific
sub-header pointers are Options. -/
structure streamHeader where
  streamID : Nat
  streamClass : Nat
  fourcc : List Nat
  timeBaseID : Nat
  msbPtsShift : Nat
  maxPtsDistance : Nat
  decodeDelay : Nat
  streamFlags : Nat
  codecSpecific : List Nat
  videoSub : Option videoStreamHeader
  audioSub : Option auditStreamHeader
  deriving Repr, DecidableEq

/-- (p *rawPacket) readStreamHeader() from gonut.go. -/
def readStreamHeader (p : rawPacket) (s : List Nat) :
    Option streamHeader × rawPacket × List Nat :=
  if p.err.isSome then (none, p, s)
  else
    let (streamID, p, s) := p.readUvarint s
    let (classRaw, p, s) := p.readUvarint s
    let streamClass := classRaw % 256
    let (fourcc, p, s) := p.readVarBytes s
    let (timeBaseID, p, s) := p.readUvarint s
    let (msbPtsShift, p, s) := p.readUvarint s
    let (maxPtsDistance, p, s) := p.readUvarint s
    let (decodeDelay, p, s) := p.readUvarint s
    let (streamFlags, p, s) := p.readUvarint s
    let (codecSpecific, p, s) := p.readVarBytes s
    if streamClass = 0 then
      let (w, p, s) := p.readUvarint s
      let (h, p, s) := p.readUvarint s
      let (sw, p, s) := p.readUvarint s
      let (sh, p, s) := p.readUvarint s
      let (cst, p, s) := p.readUvarint s
      (some { streamID, streamClass, fourcc, timeBaseID, msbPtsShift,
              maxPtsDistance, decodeDelay, streamFlags, codecSpecific,
              videoSub := some ⟨w, h, sw, sh, cst⟩, audioSub := none }, p, s)
    else if streamClass = 1 then
      let (srn, p, s) := p.readUvarint s
      let (srd, p, s) := p.readUvarint s
      let (ch, p, s) := p.readUvarint s
      (some { streamID, streamClass, fourcc, timeBaseID, msbPtsShift,
              maxPtsDistance, decodeDelay, streamFlags, codecSpecific,
              videoSub := none, audioSub := some ⟨srn, srd, ch⟩ }, p, s)
    else
      (some { streamID, streamClass, fourcc, timeBaseID, msbPtsShift,
              maxPtsDistance, decodeDelay, streamFlags, codecSpecific,
              videoSub := none, audioSub := none }, p, s)

/-- The side-data variants of side_data.go (sideUint64 is the value-less
placeholder: only the name is filled, value stays zero). -/
inductive sideData where
  | sideUTF8 (name : List Nat) (value : List Nat)
  | sideGeneric (name innerType value : List Nat)
  | sideInt64 (name : List Nat) (value : Int)
  | sideTime (name : List Nat) (value : Nat)
  | sideRational (name : List Nat) (den num : Int)
  | sideUint64 (name : List Nat) (value : Nat)
  deriving Repr, DecidableEq

/-- The body of the readSideData entry loop after name and type have been
read: the if/else-if chain on the signed type discriminator. -/
def readSideValue (typeVal : Int) (name : List Nat) (p : rawPacket) (s : List Nat) :
    sideData × rawPacket × List Nat :=
  if typeVal = -1 then
    let (val, p, s) := p.readVarBytes s
    (.sideUTF8 name val, p, s)
  else if typeVal = -2 then
    let (innerType, p, s) := p.readVarBytes s
    let (val, p, s) := p.readVarBytes s
    (.sideGeneric name innerType val, p, s)
  else if typeVal = -3 then
    let (val, p, s) := p.readVarint s
    (.sideInt64 name val, p, s)
  else if typeVal = -4 then
    let (val, p, s) := p.readUvarint s
    (.sideTime name val, p, s)
  else if typeVal < -4 then
    let (num, p, s) := p.readVarint s
    (.sideRational name (-typeVal - 4) num, p, s)
  else
    (.sideUint64 name 0, p, s)

def readSideEntries : Nat → rawPacket → List Nat → List sideData × rawPacket × List Nat
  | 0, p, s => ([], p, s)
  | n + 1, p, s =>
    let (name, p, s) := p.readVarBytes s
    let (typeVal, p, s) := p.readVarint s
    let (v, p, s) := readSideValue typeVal name p s
    let (rest, p, s) := readSideEntries n p s
    (v :: rest, p, s)

/-- (p *rawPacket) readSideData() from side_data.go. -/
def readSideData (p : rawPacket) (s : List Nat) : List sideData × rawPacket × List Nat :=
  if p.err.isSome then ([], p, s)
  else
    let (count, p, s) := p.readUvarint s
    readSideEntries count p s

structure infoPacket where
  streamID : Nat
  chapterID : Int
  chapterStart : Nat
  chapterLen : Nat
  metaData : List sideData
  deriving Repr, DecidableEq

/-- (p *rawPacket) readInfoPacket() from gonut.go. -/
def readInfoPacket (p : rawPacket) (s : List Nat) :
    Option infoPacket × rawPacket × List Nat :=
  if p.err.isSome then (none, p, s)
  else
    let (streamID, p, s) := p.readUvarint s
    let (chapterID, p, s) := p.readVarint s
    let (chapterStart, p, s) := p.readUvarint s
    let (chapterLen, p, s) := p.readUvarint s
    let (metaData, p, s) := readSideData p s
    (some { streamID, chapterID, chapterStart, chapterLen, metaData }, p, s)

structure syncPoint where
  globalKeyPts : Nat
  backPtrDiv64 : Nat
  deriving Repr, DecidableEq

/-- (p *rawPacket) readSyncPoint() from gonut.go: only two uvarints of the
payload are read. -/
def readSyncPoint (p : rawPacket) (s : List Nat) :
    Option syncPoint × rawPacket × List Nat :=
  if p.err.isSome then (none, p, s)
  else
    let (gk, p, s) := p.readUvarint s
    let (bp, p, s) := p.readUvarint s
    (some ⟨gk, bp⟩, p, s)

/-!  Frame decoding and the demuxer. -/

/-- io.ReadFull(d.r, buf) of n bytes straight from the source: on a short
read everything available is consumed and none is returned. -/
def readFullN (n : Nat) (s : List Nat) : Option (List Nat) × List Nat :=
  if n ≤ s.length then (some (s.take n), s.drop n) else (none, s.drop n)

/-- (d *Demuxer) readUvarint(): sticky wrapper over the demuxer's own
source. -/
def dReadUvarint (s : List Nat) (e : Option Err) : Nat × List Nat × Option Err :=
  match e with
  | some _ => (0, s, e)
  | none =>
    match readUvarint s with
    | (x, some e', s') => (x, s', some e')
    | (x, none, s') => (x, s', none)

/-- (d *Demuxer) readVarint(): sticky wrapper over the demuxer's own
source. -/
def dReadVarint (s : List Nat) (e : Option Err) : Int × List Nat × Option Err :=
  match e with
  | some _ => (0, s, e)
  | none =>
    match readVarint s with
    | (v, some e', s') => (v, s', some e')
    | (v, none, s') => (v, s', none)

/-- The reserved-field discard loop of readFrame. -/
def dSkipUvarints : Nat → List Nat → Option Err → List Nat × Option Err
  | 0, s, e => (s, e)
  | n + 1, s, e =>
    let (_, s, e) := dReadUvarint s e
    dSkipUvarints n s e

structure frame where
  streamID : Nat := 0
  codedPTS : Nat := 0
  dataSizeMsb : Nat := 0
  matchTimeDelta : Int := 0
  headerIdx : Nat := 0
  res : Nat := 0
  data : List Nat := []
  deriving Repr, DecidableEq

/-- Result of readFrame: a frame (with the demuxer error state as the Go
method leaves it — it can return a frame with d.err set), a returned
error (recorded in d.err), or a Go runtime fault. -/
inductive FrameRes where
  | ok (f : frame) (s : List Nat) (e : Option Err)
  | fail (e : Err) (s : List Nat)
  | panic
  deriving Repr, DecidableEq

/-- (d *Demuxer) readFrame(code, h) from gonut.go.  With h == nil the very
first use h.Frames[code] dereferences a nil pointer: .panic. -/
def readFrame (code : Nat) (mh : Option mainHeader) (s : List Nat) (e : Option Err) :
    FrameRes :=
  match e with
  | some err => .fail err s
  | none =>
    match mh with
    | none => .panic
    | some h =>
      let meta := h.Frames code
      let streamID := meta.streamID
      let mtd := meta.matchTimeDelta
      let headerIdx := meta.headerIdx
      let size := meta.lsb
      let sizeMul := meta.mul
      let flags := meta.flags
      let (flags, s, e) :=
        if flags &&& flagCoded > 0 then
          let (cf, s, e) := dReadUvarint s none
          (flags ^^^ cf, s, e)
        else (flags, s, (none : Option Err))
      let (streamID, s, e) :=
        if flags &&& flagStreamID > 0 then dReadUvarint s e else (streamID, s, e)
      let (codedPTS, s, e) :=
        if flags &&& flagCodedPts > 0 then dReadUvarint s e else (0, s, e)
      let (dataSizeMsb, size, s, e) :=
        if flags &&& flagSizeMSB > 0 then
          let (msb, s, e) := dReadUvarint s e
          (msb, (size + sizeMul * msb) % U64, s, e)
        else (0, size, s, e)
      let (mtd, s, e) :=
        if flags &&& flagMatchTime > 0 then dReadVarint s e else (mtd, s, e)
      let (headerIdx, s, e) :=
        if flags &&& flagHeaderIdx > 0 then dReadUvarint s e else (headerIdx, s, e)
      let (res, s, e) :=
        if flags &&& flagReserved > 0 then dReadUvarint s e else (0, s, e)
      let (s, e) := dSkipUvarints res s e
      match (if flags &&& flagChecksum > 0 then readFullN 4 s else (some [], s)) with
      | (none, s') => .fail .eof s'
      | (some _, s') =>
        match readFullN size s' with
        | (none, s2) => .fail .eof s2
        | (some data, s2) =>
          .ok { streamID := streamID, codedPTS := codedPTS,
                dataSizeMsb := dataSizeMsb, matchTimeDelta := mtd,
                headerIdx := headerIdx, res := res, data := data } s2 e

/-- Modelled from claim C5's wording (the spec's fixed decode order for a
frame, section 4.6): given the frame code's table entry, if the entry's
flags include the coded-flags bit, read one unsigned varint and XOR it
into the base flags; then, gated by the resulting flags, read stream id
(else keep the table default), coded PTS, size-MSB — recomputing payload
size as baseSize + multiplier * sizeMSB — match-time delta, header index,
a reserved-field count followed by that many discarded varints, and a
discarded 4-byte checksum; finally read exactly the computed size in
payload bytes. -/
def readFrameSpec (meta : frameInfo) (s : List Nat) : FrameRes :=
  let (flags, s, e) :=
    if meta.flags &&& flagCoded > 0 then
      let (cf, s, e) := dReadUvarint s none
      (meta.flags ^^^ cf, s, e)
    else (meta.flags, s, (none : Option Err))
  let (streamID, s, e) :=
    if flags &&& flagStreamID > 0 then dReadUvarint s e else (meta.streamID, s, e)
  let (codedPTS, s, e) :=
    if flags &&& flagCodedPts > 0 then dReadUvarint s e else (0, s, e)
  let (dataSizeMsb, size, s, e) :=
    if flags &&& flagSizeMSB > 0 then
      let (msb, s, e) := dReadUvarint s e
      (msb, (meta.lsb + meta.mul * msb) % U64, s, e)
    else (0, meta.lsb, s, e)
  let (mtd, s, e) :=
    if flags &&& flagMatchTime > 0 then dReadVarint s e else (meta.matchTimeDelta, s, e)
  let (headerIdx, s, e) :=
    if flags &&& flagHeaderIdx > 0 then dReadUvarint s e else (meta.headerIdx, s, e)
  let (res, s, e) :=
    if flags &&& flagReserved > 0 then dReadUvarint s e else (0, s, e)
  let (s, e) := dSkipUvarints res s e
  match (if flags &&& flagChecksum > 0 then readFullN 4 s else (some [], s)) with
  | (none, s') => .fail .eof s'
  | (some _, s') =>
    match readFullN size s' with
    | (none, s2) => .fail .eof s2
    | (some data, s2) =>
      .ok { streamID := streamID, codedPTS := codedPTS,
            dataSizeMsb := dataSizeMsb, matchTimeDelta := mtd,
            headerIdx := headerIdx, res := res, data := data } s2 e

inductive Event where
  | startStream (h : streamHeader)
  | frameEvent (f : frame)
  deriving Repr, DecidableEq

/-- Result of one ReadEvent call.  .panic is a Go runtime fault, .diverge
models fuel exhaustion of loops the Go source does not bound. -/
inductive Outcome where
  | event (e : Event)
  | error (e : Err)
  | panic
  | diverge
  deriving Repr, DecidableEq

def Outcome.isEvent : Outcome → Bool
  | .event _ => true
  | _ => false

-- the five 8-byte start codes
def mainStartCode : List Nat := [0x4E, 0x4D, 0x7A, 0x56, 0x1F, 0x5F, 0x04, 0xAD]
def streamStartCode : List Nat := [0x4E, 0x53, 0x11, 0x40, 0x5B, 0xF2, 0xF9, 0xDB]
def syncpointStartCode : List Nat := [0x4E, 0x4B, 0xE4, 0xAD, 0xEE, 0xCA, 0x45, 0x69]
def indexStartCode : List Nat := [0x4E, 0x58, 0xDD, 0x67, 0x2F, 0x23, 0xE6, 0x4E]
def infoStartCode : List Nat := [0x4E, 0x49, 0xAB, 0x68, 0xB5, 0x96, 0xBA, 0x78]

/-- Length of fileID, the 25-byte tag "nut/multimedia container\x00";
readFileHeader reads (and does not validate) this many bytes. -/
def fileIDLen : Nat := 25

/-- Session state of a Demuxer: the remaining source bytes, the stored main
header, the sticky error, and the sync.Once flag of the file-header read. -/
structure Demuxer where
  stream : List Nat
  mainHeader : Option Gonut.mainHeader
  err : Option Err
  headerRead : Bool

/-- (d *Demuxer) readPacketHeader(): the 7 remaining start-code bytes, the
packet size uvarint and, for sizes above 4096, a discarded 4-byte
checksum.  Errors carry the source position at which the failing read
stopped. -/
def readPacketHeader (s : List Nat) : Except (Err × List Nat) (List Nat × Nat × List Nat) :=
  match readFullN 7 s with
  | (none, s') => .error (.eof, s')
  | (some tail7, s') =>
    let code := 0x4E :: tail7
    match readUvarint s' with
    | (_, some e, s2) => .error (e, s2)
    | (size, none, s2) =>
      if size > 4096 then
        match readFullN 4 s2 with
        | (none, s3) => .error (.eof, s3)
        | (some _, s3) => .ok (code, size, s3)
      else .ok (code, size, s2)

/-- Result of one iteration of the ReadEvent for-loop: either the call
returns (an event, error, fault or divergence), or it falls through to the
next iteration of the loop. -/
inductive LoopStep where
  | out (o : Outcome) (st : Demuxer)
  | next (st : Demuxer)

/-- The body of one iteration of the ReadEvent for-loop, after the sticky
error check: read the lookahead byte, dispatch on the start code (or treat
the byte as a frame code).  Main-header, info, sync-point and index
packets fall through to the next iteration.  In the mainStartCode branch
the Go source assigns the readMainHeader error to err but never checks it:
the packet decode error is dropped on the floor, faithfully modelled by
ignoring the returned packet state. -/
def readUnit (fuel : Nat) (st : Demuxer) : LoopStep :=
  match st.stream with
  | [] => .out (.error .eof) { st with err := some .eof }
  | b :: rest =>
    if b = 0x4E then
      match readPacketHeader rest with
      | .error (e, s') => .out (.error e) { st with stream := s', err := some e }
      | .ok (code, size, s') =>
        if code = mainStartCode then
          if st.mainHeader.isSome then
            .out (.error .secondMainHeader) { st with stream := s', err := some .secondMainHeader }
          else
            match readMainHeader fuel ⟨[], size, none⟩ s' with
            | .panic => .out .panic { st with stream := s' }
            | .diverge => .out .diverge { st with stream := s' }
            | .ok (mh, _, s2) => .next { st with mainHeader := mh, stream := s2 }
        else if code = streamStartCode then
          match readStreamHeader ⟨[], size, none⟩ s' with
          | (hd, p', s2) =>
            match p'.err with
            | some e => .out (.error e) { st with stream := s2, err := some e }
            | none =>
              match hd with
              | some hdr => .out (.event (.startStream hdr)) { st with stream := s2 }
              | none => .out .panic { st with stream := s2 }
        else if code = infoStartCode then
          match readInfoPacket ⟨[], size, none⟩ s' with
          | (_, p', s2) =>
            match p'.err with
            | some e => .out (.error e) { st with stream := s2, err := some e }
            | none => .next { st with stream := s2 }
        else if code = syncpointStartCode then
          match readSyncPoint ⟨[], size, none⟩ s' with
          | (_, p', s2) =>
            match p'.err with
            | some e => .out (.error e) { st with stream := s2, err := some e }
            | none => .next { st with stream := s2 }
        else if code = indexStartCode then
          -- readIndex is not implemented: no reads, no error
          .next { st with stream := s' }
        else
          .out (.error (.unknownStartCode code)) { st with stream := s', err := some (.unknownStartCode code) }
    else
      match readFrame b st.mainHeader rest none with
      | .panic => .out .panic st
      | .fail e s2 => .out (.error e) { st with stream := s2, err := some e }
      | .ok f s2 e' => .out (.event (.frameEvent f)) { st with stream := s2, err := e' }

/-- The for-loop of (d *Demuxer) ReadEvent(): the sticky-error check runs
before anything else on every iteration; iterations that produce no event
loop, consuming fuel. -/
def readLoop : Nat → Demuxer → Outcome × Demuxer
  | fuel, st =>
    match st.err with
    | some e => (.error e, st)
    | none =>
      match readUnit fuel st with
      | .out o st' => (o, st')
      | .next st' =>
        match fuel with
        | 0 => (.diverge, st')
        | f + 1 => readLoop f st'

/-- The d.readHeaderOnce.Do(readFileHeader) prologue of ReadEvent. -/
def doReadHeader (st : Demuxer) : Demuxer :=
  if st.headerRead then st
  else
    match readFullN fileIDLen st.stream with
    | (some _, s') => { st with stream := s', headerRead := true }
    | (none, s') => { st with stream := s', err := some (.fileIDErr .eof), headerRead := true }

/-- (d *Demuxer) ReadEvent() from gonut.go. -/
def ReadEvent (fuel : Nat) (st : Demuxer) : Outcome × Demuxer :=
  readLoop fuel (doReadHeader st)

/-!  Concrete demonstration inputs used by witnesses and counterexamples. -/

/-- A trivial main header value (all fields zero/empty) used to populate a
session for duplicate-header scenarios. -/
def emptyMH : mainHeader :=
  { Version := 0, MinorVersion := 0, StreamCount := 0, MaxDistance := 0,
    TimeBases := [], Frames := fun _ => {}, Flags := 0 }

/-- A synthetic main-header packet payload: version 3, one stream, max
distance 0, no time bases, then a single record with flags 5, six fields
(ptsDelta 1, multiplier 2, stream 0, base size 0, reserved 0, explicit
run length 255), no elision headers and global flags 0.  The single run
covers all 256 codes (255 run units plus the skipped reserved slot). -/
def c1bytes : List Nat := [3, 1, 0, 0, 5, 6, 1, 2, 0, 0, 0, 0x81, 0x7f, 0, 0]

def c1run : PRes (Option mainHeader × rawPacket × List Nat) :=
  readMainHeader 300 ⟨[], 15, none⟩ c1bytes

/-- The header decoded from c1bytes. -/
def c1hdr : mainHeader :=
  match c1run with
  | .ok (some h, _, _) => h
  | _ => emptyMH

def c1pkt : rawPacket :=
  match c1run with
  | .ok (_, p, _) => p
  | _ => ⟨[], 0, none⟩

def c1rest : List Nat :=
  match c1run with
  | .ok (_, _, s) => s
  | _ => []

/-- Observation on a main-header decode result: whenever decoding returned
a header, its table slot 0x4E carries the Invalid flag (trivially true for
the other outcomes). -/
def mhInvalidAt78 : PRes (Option mainHeader × rawPacket × List Nat) → Bool
  | .ok (some h, _, _) => (h.Frames 78).flags == flagInvalid
  | _ => true

/-- The spec's synthetic single-run table test over c1bytes: slot 78 forced
Invalid, all other 255 slots carrying the record's declared flags 5,
multiplier 2, stream 0, ptsDelta 1, reserved 0, default match-time
sentinel and header index 0, with base sizes in run order. -/
def c1slotsOK : Bool :=
  (List.range 256).all fun k =>
    if k = 78 then (c1hdr.Frames k).flags == flagInvalid
    else c1hdr.Frames k ==
      { flags := 5, mul := 2, lsb := runOff 0 0 k, ptsDelta := 1,
        reservedCount := 0, matchTimeDelta := matchUnset, headerIdx := 0,
        streamID := 0 }

/-- The table produced by a small two-unit run starting at slot 77 (so the
run crosses the reserved slot 78). -/
def w1tbl : Nat → frameInfo :=
  match fillRun 2 (fun _ => {}) 77 0 7 9 2 3 4 5 6 (-2) with
  | .ok (t, _) => t
  | _ => fun _ => {}

/-- A main-header packet payload whose single table record has four fields
(ptsDelta 1, multiplier 1, stream 0, base size 5) and no explicit run
length: the default run length is the uint64 difference 1 - 5, which
wraps to 2^64 - 4 and drives the fill loop past slot 255. -/
def c10bytes : List Nat := [3, 1, 0, 0, 0, 4, 1, 1, 0, 5]

/-- 25 bytes standing in for the file-identification tag (its content is
read but never validated). -/
def fileStub : List Nat := List.replicate 25 0

/-- A stream whose main-header packet declares size 3 — too small for the
header fields and frame table, so the payload view hits its bound (an
underlying read failure, p.err = eof) midway through the decode — followed
by a complete, valid video stream-header packet. -/
def c2stream : List Nat :=
  fileStub ++ [0x4E, 0x4D, 0x7A, 0x56, 0x1F, 0x5F, 0x04, 0xAD] ++ [3] ++ [3, 1, 0]
  ++ [0x4E, 0x53, 0x11, 0x40, 0x5B, 0xF2, 0xF9, 0xDB] ++ [14]
  ++ [0, 0, 0, 0, 0, 0, 0, 0, 0, 1, 1, 0, 0, 0]

/-- A stream holding one index packet of declared payload size 8 (payload
0x4E 1 2 3 4 5 6 7) followed by one more byte 0. -/
def c3stream : List Nat :=
  fileStub ++ [0x4E, 0x58, 0xDD, 0x67, 0x2F, 0x23, 0xE6, 0x4E] ++ [8]
  ++ [0x4E, 1, 2, 3, 4, 5, 6, 7] ++ [0]

/-!  Claim theorems. -/

theorem readUvarintLoop_bound (fuel : Nat) :
    ∀ (x m : Nat) (s : List Nat) (u : Nat) (rest : List Nat),
      x < 2 ^ m → readUvarintLoop fuel x s = (u, none, rest) →
      u < 2 ^ (m + 7 * fuel) := by
  induction fuel with
  | zero => intro x m s u rest _ h; simp [readUvarintLoop] at h
  | succ n ih =>
    intro x m s u rest hx h
    match s with
    | [] => simp [readUvarintLoop] at h
    | b :: t =>
      have hx' : ((x <<< 7) ||| (b &&& 0x7f)) % U64 < 2 ^ (m + 7) := by
        have h1 : x <<< 7 < 2 ^ (m + 7) := by
          rw [Nat.shiftLeft_eq, Nat.pow_add]
          exact Nat.mul_lt_mul_of_lt_of_le hx (le_refl _) (by positivity)
        have h2 : b &&& 0x7f < 2 ^ (m + 7) := by
          calc b &&& 0x7f ≤ 0x7f := Nat.and_le_right
            _ < 2 ^ 7 := by norm_num
            _ ≤ 2 ^ (m + 7) := Nat.pow_le_pow_right (by norm_num) (by omega)
        exact lt_of_le_of_lt (Nat.mod_le _ _) (Nat.or_lt_two_pow h1 h2)
      simp only [readUvarintLoop] at h
      by_cases hb : b < 0x80
      · simp only [hb, if_true] at h
        obtain ⟨h1, _, h3⟩ := Prod.mk.injEq .. ▸ h
        have : u = ((x <<< 7) ||| (b &&& 0x7f)) % U64 := by
          cases h; rfl
        rw [this]
        calc ((x <<< 7) ||| (b &&& 0x7f)) % U64 < 2 ^ (m + 7) := hx'
          _ ≤ 2 ^ (m + 7 * (n + 1)) := Nat.pow_le_pow_right (by norm_num) (by omega)
      · simp only [hb, if_false] at h
        have := ih _ (m + 7) _ _ _ hx' h
        calc u < 2 ^ (m + 7 + 7 * n) := this
          _ ≤ 2 ^ (m + 7 * (n + 1)) := Nat.pow_le_pow_right (by norm_num) (by omega)

/-- A successful unsigned varint read yields a value below 2^63 (9 bytes of
7 payload bits each). -/
theorem readUvarint_bound (s : List Nat) (u : Nat) (rest : List Nat)
    (h : readUvarint s = (u, none, rest)) : u < 2 ^ 63 := by
  have := readUvarintLoop_bound 9 0 0 s u rest (by norm_num) h
  simpa using this

/-- Claim C6: signed varint decoding satisfies the bias law whenever the
unsigned read succeeds: with u the unsigned value, the result is
-((u+1) >> 1) when u+1 is odd and (u+1) >> 1 when u+1 is even; the vectors
0x01 -> 1, 0x81 0x00 -> -64 and 0x81 0x01 -> 65 decode accordingly,
consuming only the minimal terminated prefix (a trailing byte 0x02 is left
unread in each vector). -/
theorem claim_C6 :
    (∀ s u rest, readUvarint s = (u, none, rest) →
      readVarint s = ((if (u + 1) % 2 = 1 then -(((u + 1) / 2 : Nat) : Int)
                       else (((u + 1) / 2 : Nat) : Int)), none, rest))
    ∧ readVarint [0x01, 0x02] = (1, none, [0x02])
    ∧ readVarint [0x81, 0x00, 0x02] = (-64, none, [0x02])
    ∧ readVarint [0x81, 0x01, 0x02] = (65, none, [0x02]) := by
  refine ⟨?_, by decide, by decide, by decide⟩
  intro s u rest h
  have hu := readUvarint_bound s u rest h
  have hmod : (u + 1) % U64 = u + 1 := by
    apply Nat.mod_eq_of_lt
    have : (2 : Nat) ^ 63 < U64 := by decide
    omega
  unfold readVarint
  rw [h]
  simp only [hmod, Nat.and_one_is_mod, Nat.shiftRight_one, ne_eq]
  by_cases hp : (u + 1) % 2 = 1
  · simp [hp]
  · have h0 : (u + 1) % 2 = 0 := by omega
    simp [h0, hp]

/-- Claim C6 witness: the bias law applied to the concrete vector
0x81 0x00 (unsigned value 128). -/
theorem claim_C6_witness : readVarint [0x81, 0x00, 0x02] = (-64, none, [0x02]) := by
  have := claim_C6.1 [0x81, 0x00, 0x02] 128 [0x02] (by decide)
  simpa using this

theorem doReadHeader_headerRead (st : Demuxer) : (doReadHeader st).headerRead = true := by
  unfold doReadHeader
  split
  · assumption
  · split <;> rfl

theorem doReadHeader_of_headerRead (st : Demuxer) (h : st.headerRead = true) :
    doReadHeader st = st := by
  unfold doReadHeader
  simp [h]

theorem readLoop_sticky (fuel : Nat) (st : Demuxer) (e : Err) (h : st.err = some e) :
    readLoop fuel st = (.error e, st) := by
  unfold readLoop
  rw [h]

/-- One loop iteration leaves headerRead untouched and records any returned
error in the session's sticky err field. -/
theorem readUnit_state (fuel : Nat) (st : Demuxer) :
    (∀ o st', readUnit fuel st = .out o st' →
      st'.headerRead = st.headerRead ∧ ∀ e, o = .error e → st'.err = some e)
    ∧ (∀ st', readUnit fuel st = .next st' → st'.headerRead = st.headerRead) := by
  constructor
  · intro o st' h
    unfold readUnit at h
    repeat' split at h
    all_goals (cases h <;> (refine ⟨rfl, fun e he => ?_⟩; cases he <;> rfl))
  · intro st' h
    unfold readUnit at h
    repeat' split at h
    all_goals (cases h <;> rfl)

/-- Every path of the ReadEvent loop leaves headerRead untouched and
records any returned error in the session's sticky err field. -/
theorem readLoop_state (fuel : Nat) : ∀ (st : Demuxer) (o : Outcome) (st' : Demuxer),
    readLoop fuel st = (o, st') →
    st'.headerRead = st.headerRead ∧ ∀ e, o = .error e → st'.err = some e := by
  induction fuel with
  | zero =>
    intro st o st' h
    unfold readLoop at h
    split at h
    · rename_i e heq
      cases h
      exact ⟨rfl, fun e' he => by cases he; exact heq⟩
    · split at h
      · rename_i o1 st1 hout
        cases h
        exact (readUnit_state 0 st).1 _ _ hout
      · rename_i st1 hnext
        cases h
        exact ⟨(readUnit_state 0 st).2 _ hnext, fun e he => by cases he⟩
  | succ f ih =>
    intro st o st' h
    unfold readLoop at h
    split at h
    · rename_i e heq
      cases h
      exact ⟨rfl, fun e' he => by cases he; exact heq⟩
    · split at h
      · rename_i o1 st1 hout
        cases h
        exact (readUnit_state (f + 1) st).1 _ _ hout
      · rename_i st1 hnext
        have h2 := ih st1 o st' h
        exact ⟨h2.1.trans ((readUnit_state (f + 1) st).2 _ hnext), h2.2⟩

/-- Claim C4: error stickiness.  Once a ReadEvent call has returned a
terminal error, every subsequent call (with any fuel) returns that same
error, leaves the session state unchanged, and never produces a further
event: no partial recovery or retry happens. -/
theorem claim_C4 (fuel : Nat) (st : Demuxer) (e : Err) (st' : Demuxer)
    (h : ReadEvent fuel st = (.error e, st')) :
    ∀ fuel', ReadEvent fuel' st' = (.error e, st') := by
  intro fuel'
  unfold ReadEvent at h ⊢
  obtain ⟨hhr, herr⟩ := readLoop_state fuel (doReadHeader st) _ _ h
  have hhr' : st'.headerRead = true := hhr.trans (doReadHeader_headerRead st)
  rw [doReadHeader_of_headerRead st' hhr']
  exact readLoop_sticky fuel' st' e (herr e rfl)

/-- Claim C4 witness: a session whose source is empty fails its file-header
read; the repeated call returns the identical terminal error. -/
theorem claim_C4_witness :
    ReadEvent 7 ⟨[], none, some (.fileIDErr .eof), true⟩ =
      (.error (.fileIDErr .eof), ⟨[], none, some (.fileIDErr .eof), true⟩) :=
  claim_C4 1 ⟨[], none, none, false⟩ (.fileIDErr .eof)
    ⟨[], none, some (.fileIDErr .eof), true⟩ rfl 7

/-- Claim C8: a session holds at most one main header.  If a session whose
main header is already stored meets another main-header start code, the
call returns the distinct terminal duplicate error (Second Main header
detected) before decoding the packet payload, and the stored first header
is unchanged. -/
theorem claim_C8 (st : Demuxer) (h : Gonut.mainHeader) (fuel : Nat)
    (r s' : List Nat) (size : Nat)
    (herr : st.err = none) (hhr : st.headerRead = true)
    (hmh : st.mainHeader = some h)
    (hstream : st.stream = 0x4E :: r)
    (hph : readPacketHeader r = .ok (mainStartCode, size, s')) :
    ReadEvent fuel st = (.error .secondMainHeader,
      { st with stream := s', err := some .secondMainHeader })
    ∧ ({ st with stream := s', err := some .secondMainHeader } : Demuxer).mainHeader
        = some h := by
  refine ⟨?_, hmh⟩
  unfold ReadEvent
  rw [doReadHeader_of_headerRead st hhr]
  unfold readLoop readUnit
  simp [herr, hstream, hph, hmh]

/-- Claim C8 witness: a session already holding a header, whose source
starts with a complete main-header packet header of size 0. -/
theorem claim_C8_witness :
    ReadEvent 3 ⟨0x4E :: [0x4D, 0x7A, 0x56, 0x1F, 0x5F, 0x04, 0xAD, 0], some emptyMH, none, true⟩
      = (.error .secondMainHeader,
         ⟨[], some emptyMH, some .secondMainHeader, true⟩)
    ∧ (⟨[], some emptyMH, some .secondMainHeader, true⟩ : Demuxer).mainHeader
        = some emptyMH :=
  claim_C8 ⟨0x4E :: [0x4D, 0x7A, 0x56, 0x1F, 0x5F, 0x04, 0xAD, 0], some emptyMH, none, true⟩
    emptyMH 3 [0x4D, 0x7A, 0x56, 0x1F, 0x5F, 0x04, 0xAD, 0] [] 0 rfl rfl rfl rfl rfl

/-- Claim C9: if the first top-level unit is a frame code (lookahead byte
other than the reserved marker 0x4E) before any main-header packet has
been processed, readFrame is invoked with a nil main header and the
dispatch-table lookup h.Frames[code] faults: the outcome is the runtime
fault, not a protocol error and not an event. -/
theorem claim_C9 (st : Demuxer) (b : Nat) (rest : List Nat) (fuel : Nat)
    (herr : st.err = none) (hhr : st.headerRead = true)
    (hmh : st.mainHeader = none)
    (hstream : st.stream = b :: rest) (hb : b ≠ 0x4E) :
    ReadEvent fuel st = (.panic, st) := by
  unfold ReadEvent
  rw [doReadHeader_of_headerRead st hhr]
  unfold readLoop readUnit
  simp [herr, hstream, hmh, hb, readFrame]

/-- Claim C9 witness: a fresh-after-file-header session whose source opens
with frame code 0. -/
theorem claim_C9_witness :
    ReadEvent 5 ⟨[0], none, none, true⟩ = (.panic, ⟨[0], none, none, true⟩) :=
  claim_C9 ⟨[0], none, none, true⟩ 0 [] 5 rfl rfl rfl rfl (by decide)

/-- Claim C5: for every frame code other than the reserved marker and its
table entry, the frame decoder proceeds in exactly the fixed order stated
by the spec (coded-flags XOR override, then flag-gated stream id, coded
PTS, size-MSB with size = baseSize + multiplier * sizeMSB, match-time
delta, header index, reserved count plus that many discarded varints,
discarded 4-byte checksum, then exactly the computed size of payload):
readFrame coincides with the spec-worded decode readFrameSpec on the
code's table entry. -/
theorem claim_C5 (code : Nat) (h : Gonut.mainHeader) (s : List Nat)
    (_ : code ≠ 0x4E) :
    readFrame code (some h) s none = readFrameSpec (h.Frames code) s := rfl

/-- Claim C5 witness: the refinement applied at frame code 1 over the
all-zero table. -/
theorem claim_C5_witness :
    readFrame 1 (some emptyMH) [] none = readFrameSpec (emptyMH.Frames 1) [] :=
  claim_C5 1 emptyMH [] (by decide)

/-- Claim C7: the side-data discriminator selects the variant exactly by
the spec's thresholds: -1 UTF8 (one length-prefixed block), -2 Generic
(length-prefixed inner type then length-prefixed value), -3 signed
integer, -4 unsigned time value, anything strictly below -4 a Rational
with denominator -(discriminator) - 4 and a signed-varint numerator, and
anything at least 0 a value-less placeholder carrying only the name with
no further bytes read (packet and source untouched). -/
theorem claim_C7 (name : List Nat) (p : rawPacket) (s : List Nat) :
    (readSideValue (-1) name p s =
      (match p.readVarBytes s with
       | (val, p1, s1) => (.sideUTF8 name val, p1, s1)))
    ∧ (readSideValue (-2) name p s =
      (match p.readVarBytes s with
       | (innerType, p1, s1) =>
         match p1.readVarBytes s1 with
         | (val, p2, s2) => (.sideGeneric name innerType val, p2, s2)))
    ∧ (readSideValue (-3) name p s =
      (match p.readVarint s with
       | (val, p1, s1) => (.sideInt64 name val, p1, s1)))
    ∧ (readSideValue (-4) name p s =
      (match p.readUvarint s with
       | (val, p1, s1) => (.sideTime name val, p1, s1)))
    ∧ (∀ t : Int, t < -4 → readSideValue t name p s =
      (match p.readVarint s with
       | (num, p1, s1) => (.sideRational name (-t - 4) num, p1, s1)))
    ∧ (∀ t : Int, 0 ≤ t → readSideValue t name p s = (.sideUint64 name 0, p, s)) := by
  refine ⟨rfl, rfl, rfl, rfl, ?_, ?_⟩
  · intro t ht
    unfold readSideValue
    rw [if_neg (by omega), if_neg (by omega), if_neg (by omega), if_neg (by omega),
        if_pos ht]
  · intro t ht
    unfold readSideValue
    rw [if_neg (by omega), if_neg (by omega), if_neg (by omega), if_neg (by omega),
        if_neg (by omega)]

/-- Claim C7 witness: discriminator -7 yields a Rational of denominator 3,
and discriminator 5 yields the placeholder, reading nothing. -/
theorem claim_C7_witness :
    readSideValue (-7) [] ⟨[], 0, none⟩ [] =
      (match rawPacket.readVarint ⟨[], 0, none⟩ [] with
       | (num, p1, s1) => (.sideRational [] (-(-7 : Int) - 4) num, p1, s1))
    ∧ readSideValue 5 [] ⟨[], 0, none⟩ [] = (.sideUint64 [] 0, ⟨[], 0, none⟩, []) :=
  ⟨(claim_C7 [] ⟨[], 0, none⟩ []).2.2.2.2.1 (-7) (by norm_num),
   (claim_C7 [] ⟨[], 0, none⟩ []).2.2.2.2.2 5 (by norm_num)⟩

theorem upd_ne (tbl : Nat → frameInfo) (m : Nat) (e : frameInfo) (k : Nat)
    (h : k ≠ m) : upd tbl m e k = tbl k := by
  simp [upd, h]

theorem upd_eq (tbl : Nat → frameInfo) (m : Nat) (e : frameInfo) :
    upd tbl m e m = e := by
  simp [upd]

theorem runOff_self (i j : Nat) : runOff i j i = j := by
  unfold runOff
  rw [if_neg (by omega)]
  omega

theorem runOff_skip (j k : Nat) (hk : 80 ≤ k) :
    runOff 78 j k = runOff 80 (j + 1) k := by
  unfold runOff
  rw [if_pos (by omega), if_neg (by omega)]
  omega

theorem runOff_79 (j : Nat) : runOff 78 j 79 = j := by
  unfold runOff
  rw [if_pos (by omega)]
  omega

theorem runOff_step (i j k : Nat) (hi : i ≠ 78) (hk : i + 1 ≤ k) :
    runOff i j k = runOff (i + 1) (j + 1) k := by
  unfold runOff
  by_cases hc : 78 < k
  · by_cases hc2 : i ≤ 78
    · rw [if_pos ⟨hc2, hc⟩, if_pos ⟨by omega, hc⟩]
      omega
    · rw [if_neg (by omega), if_neg (by omega)]
      omega
  · rw [if_neg (by omega), if_neg (by omega)]
    omega

/-- Full characterisation of a successful run fill: the final index is at
least the initial one, slots outside [i, iF) are untouched, a crossed
reserved slot 78 has only its flags forced to Invalid, and every other
slot k in the run carries the record's fields with base size
size + runOff i j k. -/
theorem fillRun_spec :
    ∀ (n : Nat) (tbl : Nat → frameInfo) (i j : Nat)
      (flags stream mul size res headIdx : Nat) (pts mtd : Int)
      (tblF : Nat → frameInfo) (iF : Nat),
      fillRun n tbl i j flags stream mul size res headIdx pts mtd = .ok (tblF, iF) →
      i ≤ iF
      ∧ (∀ k, k < i → tblF k = tbl k)
      ∧ (∀ k, iF ≤ k → tblF k = tbl k)
      ∧ (i ≤ 78 → 78 < iF → tblF 78 = { tbl 78 with flags := flagInvalid })
      ∧ (∀ k, i ≤ k → k < iF → k ≠ 78 →
          tblF k = { flags := flags, mul := mul,
                     lsb := (size + runOff i j k) % U64, ptsDelta := pts,
                     reservedCount := res, matchTimeDelta := mtd,
                     headerIdx := headIdx, streamID := stream }) := by
  intro n
  induction n with
  | zero =>
    intro tbl i j flags stream mul size res headIdx pts mtd tblF iF h
    simp only [fillRun, PRes.ok.injEq, Prod.mk.injEq] at h
    obtain ⟨h1, h2⟩ := h
    subst h1 h2
    exact ⟨le_refl i, fun k _ => rfl, fun k _ => rfl,
           fun a b => absurd b (by omega),
           fun k hk1 hk2 _ => absurd hk2 (by omega)⟩
  | succ n ih =>
    intro tbl i j flags stream mul size res headIdx pts mtd tblF iF h
    simp only [fillRun] at h
    by_cases hi : i = 78
    · subst hi
      rw [if_pos rfl] at h
      obtain ⟨h1, h2, h3, _, h5⟩ := ih _ _ _ _ _ _ _ _ _ _ _ _ _ h
      refine ⟨by omega, ?_, ?_, ?_, ?_⟩
      · intro k hk
        rw [h2 k (by omega), upd_ne _ _ _ _ (by omega), upd_ne _ _ _ _ (by omega)]
      · intro k hk
        rw [h3 k hk, upd_ne _ _ _ _ (by omega), upd_ne _ _ _ _ (by omega)]
      · intro _ _
        rw [h2 78 (by omega), upd_ne _ _ _ _ (by omega), upd_eq]
      · intro k hk1 hk2 hk78
        by_cases hk79 : k = 79
        · subst hk79
          rw [h2 79 (by omega), upd_eq, runOff_79]
        · rw [h5 k (by omega) hk2 hk78, ← runOff_skip _ _ (by omega)]
    · rw [if_neg hi] at h
      by_cases hlt : i < 256
      · rw [if_pos hlt] at h
        obtain ⟨h1, h2, h3, h4, h5⟩ := ih _ _ _ _ _ _ _ _ _ _ _ _ _ h
        refine ⟨by omega, ?_, ?_, ?_, ?_⟩
        · intro k hk
          rw [h2 k (by omega), upd_ne _ _ _ _ (by omega)]
        · intro k hk
          rw [h3 k hk, upd_ne _ _ _ _ (by omega)]
        · intro hile hlt78
          rw [h4 (by omega) hlt78, upd_ne _ _ _ _ (by omega)]
        · intro k hk1 hk2 hk78
          by_cases hki : k = i
          · subst hki
            rw [h2 k (by omega), upd_eq, runOff_self]
          · rw [h5 k (by omega) hk2 hk78, ← runOff_step _ _ _ hi (by omega)]
      · rw [if_neg hlt] at h
        simp at h

/-- A run that still has units left and extends past slot 255 panics (the
out-of-range write): no bound check and no protocol error. -/
theorem fillRun_panic :
    ∀ (n : Nat) (tbl : Nat → frameInfo) (i j : Nat)
      (flags stream mul size res headIdx : Nat) (pts mtd : Int),
      1 ≤ n → 256 - i - (if i ≤ 78 then 1 else 0) < n →
      fillRun n tbl i j flags stream mul size res headIdx pts mtd = .panic := by
  intro n
  induction n with
  | zero =>
    intro tbl i j flags stream mul size res headIdx pts mtd h1 _
    omega
  | succ n ih =>
    intro tbl i j flags stream mul size res headIdx pts mtd h1 h2
    simp only [fillRun]
    by_cases hi : i = 78
    · subst hi
      rw [if_pos (by omega)] at h2
      rw [if_pos rfl]
      exact ih _ _ _ _ _ _ _ _ _ _ _ (by omega) (by rw [if_neg (by omega)]; omega)
    · rw [if_neg hi]
      by_cases hlt : i < 256
      · rw [if_pos hlt]
        by_cases hi78 : i ≤ 78
        · rw [if_pos hi78] at h2
          exact ih _ _ _ _ _ _ _ _ _ _ _ (by omega)
            (by rw [if_pos (by omega)]; omega)
        · rw [if_neg hi78] at h2
          exact ih _ _ _ _ _ _ _ _ _ _ _ (by omega)
            (by rw [if_neg (by omega)]; omega)
      · rw [if_neg hlt]

/-- Outer-loop invariant: once construction has passed slot 78 (or has yet
to reach it), a successful completed table has the Invalid flag at 78. -/
theorem readFrameTable_inv (fuel : Nat) :
    ∀ (tbl : Nat → frameInfo) (i : Nat) (pts : Int) (mul stream : Nat)
      (mtd : Int) (headIdx : Nat) (p : rawPacket) (s : List Nat)
      (tblF : Nat → frameInfo) (p' : rawPacket) (s' : List Nat),
      readFrameTable fuel tbl i pts mul stream mtd headIdx p s = .ok (tblF, p', s') →
      (i ≤ 78 ∨ (tbl 78).flags = flagInvalid) →
      (tblF 78).flags = flagInvalid := by
  induction fuel with
  | zero =>
    intro tbl i pts mul stream mtd headIdx p s tblF p' s' h hinv
    rw [readFrameTable] at h
    by_cases hlt : i < 256
    · rw [if_pos hlt] at h
      rcases hrec : readRecord pts mul stream mtd headIdx p s with
        ⟨flags, pts1, mul1, stream1, size, res, count, mtd1, headIdx1, p1, s1⟩
      simp only [hrec] at h
      cases hfill : fillRun count tbl i 0 flags stream1 mul1 size res headIdx1 pts1 mtd1 with
      | ok pair => simp [hfill] at h
      | panic => simp [hfill] at h
      | diverge => simp [hfill] at h
    · rw [if_neg hlt] at h
      simp only [PRes.ok.injEq, Prod.mk.injEq] at h
      obtain ⟨ht, _, _⟩ := h
      subst ht
      rcases hinv with hle | hflag
      · omega
      · exact hflag
  | succ f ih =>
    intro tbl i pts mul stream mtd headIdx p s tblF p' s' h hinv
    rw [readFrameTable] at h
    by_cases hlt : i < 256
    · rw [if_pos hlt] at h
      rcases hrec : readRecord pts mul stream mtd headIdx p s with
        ⟨flags, pts1, mul1, stream1, size, res, count, mtd1, headIdx1, p1, s1⟩
      simp only [hrec] at h
      cases hfill : fillRun count tbl i 0 flags stream1 mul1 size res headIdx1 pts1 mtd1 with
      | ok pair =>
        obtain ⟨tbl2, i2⟩ := pair
        simp only [hfill] at h
        obtain ⟨g1, g2, g3, g4, g5⟩ := fillRun_spec _ _ _ _ _ _ _ _ _ _ _ _ _ _ hfill
        refine ih _ _ _ _ _ _ _ _ _ _ _ _ h ?_
        by_cases hi2 : i2 ≤ 78
        · exact Or.inl hi2
        · refine Or.inr ?_
          by_cases hile : i ≤ 78
          · rw [g4 hile (by omega)]
          · rcases hinv with hle | hflag
            · omega
            · rw [g2 78 (by omega)]
              exact hflag
      | panic => simp [hfill] at h
      | diverge => simp [hfill] at h
    · rw [if_neg hlt] at h
      simp only [PRes.ok.injEq, Prod.mk.injEq] at h
      obtain ⟨ht, _, _⟩ := h
      subst ht
      rcases hinv with hle | hflag
      · omega
      · exact hflag

/-- Claim C1: frame-table construction is a run-length expansion in which
every slot of a run receives the record's flags, default stream id, size
multiplier, ptsDelta, reservedCount, matchTimeDelta and headerIdx, with a
per-slot base size equal to the record's base size plus the slot's offset
within the run; the reserved slot 0x4E is instead forced to the Invalid
flag and consumes no run length (runOff accounts for the skipped unit);
consequently every successfully decoded main header has the Invalid flag
at slot 0x4E, and the spec's synthetic single-run table over all 256 codes
comes out slot-by-slot as declared. -/
theorem claim_C1 :
    (∀ (n : Nat) (tbl : Nat → frameInfo) (i j : Nat)
       (flags stream mul size res headIdx : Nat) (pts mtd : Int)
       (tblF : Nat → frameInfo) (iF : Nat),
       fillRun n tbl i j flags stream mul size res headIdx pts mtd = .ok (tblF, iF) →
       ∀ k, i ≤ k → k < iF →
         tblF k = if k = 78 then { tbl k with flags := flagInvalid }
                  else { flags := flags, mul := mul,
                         lsb := (size + runOff i j k) % U64, ptsDelta := pts,
                         reservedCount := res, matchTimeDelta := mtd,
                         headerIdx := headIdx, streamID := stream })
    ∧ (∀ (fuel : Nat) (p : rawPacket) (s : List Nat),
        mhInvalidAt78 (readMainHeader fuel p s) = true)
    ∧ c1slotsOK = true := by
  refine ⟨?_, ?_, by set_option maxRecDepth 40000 in decide⟩
  · intro n tbl i j flags stream mul size res headIdx pts mtd tblF iF h k hk1 hk2
    obtain ⟨g1, g2, g3, g4, g5⟩ := fillRun_spec _ _ _ _ _ _ _ _ _ _ _ _ _ _ h
    by_cases hk : k = 78
    · subst hk
      rw [if_pos rfl]
      exact g4 (by omega) (by omega)
    · rw [if_neg hk]
      exact g5 k hk1 hk2 hk
  · intro fuel p s
    rcases hrun : readMainHeader fuel p s with ⟨mh, p', s'⟩ | _ | _
    · cases mh with
      | none => rfl
      | some hd =>
        simp only [mhInvalidAt78, beq_iff_eq]
        unfold readMainHeader at hrun
        by_cases he : p.err.isSome = true
        · rw [if_pos he] at hrun
          simp at hrun
        · rw [if_neg he] at hrun
          repeat' split at hrun
          all_goals (try (cases hrun))
          exact readFrameTable_inv _ _ _ _ _ _ _ _ _ _ _ _ _ (by assumption)
            (Or.inl (by omega))
    · rfl
    · rfl

/-- Claim C1 witness: a two-unit run starting at slot 77 crosses the
reserved slot; slot 79 receives the record's fields at run offset 1. -/
theorem claim_C1_witness :
    w1tbl 79 = { flags := 7, mul := 2, lsb := (3 + runOff 77 0 79) % U64,
                 ptsDelta := 6, reservedCount := 4, matchTimeDelta := -2,
                 headerIdx := 5, streamID := 9 } := by
  have := claim_C1.1 2 (fun _ => {}) 77 0 7 9 2 3 4 5 6 (-2) w1tbl 80 rfl 79
    (by omega) (by omega)
  simpa using this

/-- Claim C10: the fill loop has no slot-bound check inside a record (the
bound is checked only between records), so a record whose remaining run
exceeds the slots left before index 256 panics on the out-of-range write
instead of stopping at the bound or returning a protocol error; the
default run length is the wrapping uint64 difference multiplier - baseSize
(2^64 - 4 for multiplier 1 and base size 5), and a main header using it
drives construction past slot 255 into the fault. -/
theorem claim_C10 :
    (∀ (n : Nat) (tbl : Nat → frameInfo) (i j : Nat)
       (flags stream mul size res headIdx : Nat) (pts mtd : Int),
       1 ≤ n → 256 - i - (if i ≤ 78 then 1 else 0) < n →
       fillRun n tbl i j flags stream mul size res headIdx pts mtd = .panic)
    ∧ (readRecord 0 1 0 matchUnset 0 ⟨[], 10, none⟩ [0, 4, 1, 1, 0, 5]).count
        = U64 - 4
    ∧ readMainHeader 300 ⟨[], 10, none⟩ c10bytes = .panic := by
  refine ⟨fillRun_panic, by decide, by set_option maxRecDepth 40000 in rfl⟩

/-- Claim C10 witness: a run of two units starting at the last slot 255
overruns the table and panics. -/
theorem claim_C10_witness :
    fillRun 2 (fun _ => {}) 255 0 0 0 0 0 0 0 0 0 = .panic :=
  claim_C10.1 2 (fun _ => {}) 255 0 0 0 0 0 0 0 0 0 (by omega) (by decide)

set_option maxRecDepth 40000 in
/-- Claim C2 evaluation at the failing input: decoding c2stream, the main
header packet's payload view is exhausted midway (an underlying read
failure inside readMainHeader), yet the same ReadEvent call neither
returns that error nor terminates the session: the error is dropped (the
mainStartCode branch assigns err without checking it), a partial header is
stored, and the call returns the following packet's StartStream event with
the session error still clear. -/
theorem claim_C2_bug :
    (ReadEvent 600 ⟨c2stream, none, none, false⟩).1.isEvent = true
    ∧ (ReadEvent 600 ⟨c2stream, none, none, false⟩).2.err = none
    ∧ (ReadEvent 600 ⟨c2stream, none, none, false⟩).2.mainHeader.isSome = true :=
  ⟨rfl, rfl, rfl⟩

set_option maxRecDepth 40000 in
/-- Claim C3 counterexample: the index packet of c3stream declares payload
size 8, its decoder reads none of it, and nothing skips the remainder: the
very same ReadEvent call parses the packet's own payload bytes
0x4E 1 2 3 4 5 6 7 as the next top-level unit and fails with an unknown
start code naming exactly those payload bytes — so fewer than the declared
8 payload bytes had been consumed when the next unit's first byte was
read, contradicting the claim. -/
theorem claim_C3_counterexample :
    (ReadEvent 10 ⟨c3stream, none, none, false⟩).1
      = .error (.unknownStartCode [0x4E, 1, 2, 3, 4, 5, 6, 7]) := rfl

theorem rpRead1_consume (p : rawPacket) (s : List Nat) (r : Option Nat)
    (p' : rawPacket) (s' : List Nat) (h : rpRead1 p s = (r, p', s')) :
    s'.length ≤ s.length ∧ p'.limit + (s.length - s'.length) = p.limit := by
  unfold rpRead1 at h
  split at h
  · cases h
    exact ⟨le_refl _, by simp⟩
  · split at h
    · cases h
      exact ⟨le_refl _, by omega⟩
    · cases h
      constructor
      · show (s.drop (min bufSize (min p.limit s.length))).length ≤ s.length
        simp [List.length_drop]
      · show p.limit - min bufSize (min p.limit s.length)
          + (s.length - (s.drop (min bufSize (min p.limit s.length))).length) = p.limit
        simp only [List.length_drop]
        omega

theorem rpLoop_consume (fuel : Nat) : ∀ (x : Nat) (p : rawPacket) (s : List Nat)
    (u : Nat) (e : Option Err) (p' : rawPacket) (s' : List Nat),
    rpReadUvarintLoop fuel x p s = (u, e, p', s') →
    s'.length ≤ s.length ∧ p'.limit + (s.length - s'.length) = p.limit := by
  induction fuel with
  | zero =>
    intro x p s u e p' s' h
    cases h
    exact ⟨le_refl _, by omega⟩
  | succ n ihn =>
    intro x p s u e p' s' h
    rw [rpReadUvarintLoop] at h
    split at h
    · rename_i p1 s1 heq
      cases h
      exact rpRead1_consume _ _ _ _ _ heq
    · rename_i b p1 s1 heq
      have hc := rpRead1_consume _ _ _ _ _ heq
      split at h
      · cases h
        exact hc
      · have hr := ihn _ _ _ _ _ _ _ h
        exact ⟨by omega, by omega⟩

theorem readUvarint_consume (p : rawPacket) (s : List Nat) (u : Nat)
    (p' : rawPacket) (s' : List Nat) (h : p.readUvarint s = (u, p', s')) :
    s'.length ≤ s.length ∧ p'.limit + (s.length - s'.length) = p.limit := by
  unfold rawPacket.readUvarint at h
  split at h
  · cases h
    exact ⟨le_refl _, by omega⟩
  · split at h
    · rename_i x e1 p1 s1 heq
      cases h
      have hl := rpLoop_consume 9 _ _ _ _ _ _ _ heq
      refine ⟨hl.1, ?_⟩
      show p1.limit + (s.length - s'.length) = p.limit
      exact hl.2
    · rename_i x p1 s1 heq
      cases h
      exact rpLoop_consume 9 _ _ _ _ _ _ _ heq

/-- Under-reads never pull more than the packet's size bound from the
source: readSyncPoint consumes at most p.limit bytes. -/
theorem readSyncPoint_consume (p : rawPacket) (s : List Nat) (r : Option syncPoint)
    (p' : rawPacket) (s' : List Nat) (h : readSyncPoint p s = (r, p', s')) :
    s.length - s'.length ≤ p.limit := by
  unfold readSyncPoint at h
  split at h
  · cases h
    omega
  · split at h
    rename_i gk p1 s1 heq1
    split at h
    rename_i bp p2 s2 heq2
    cases h
    have h1 := readUvarint_consume _ _ _ _ _ heq1
    have h2 := readUvarint_consume _ _ _ _ _ heq2
    omega

theorem rpRead1_limit0 (p : rawPacket) (s : List Nat) (r : Option Nat)
    (p' : rawPacket) (s' : List Nat) (h0 : p.limit = 0)
    (h : rpRead1 p s = (r, p', s')) : s' = s ∧ p'.limit = 0 := by
  unfold rpRead1 at h
  split at h
  · cases h
    exact ⟨rfl, h0⟩
  · split at h
    · cases h
      exact ⟨rfl, h0⟩
    · rename_i heq
      exfalso
      rw [h0] at heq
      simp at heq

theorem rpLoop_limit0 (fuel : Nat) : ∀ (x : Nat) (p : rawPacket) (s : List Nat)
    (u : Nat) (e : Option Err) (p' : rawPacket) (s' : List Nat),
    p.limit = 0 → rpReadUvarintLoop fuel x p s = (u, e, p', s') →
    s' = s ∧ p'.limit = 0 := by
  induction fuel with
  | zero =>
    intro x p s u e p' s' h0 h
    cases h
    exact ⟨rfl, h0⟩
  | succ n ihn =>
    intro x p s u e p' s' h0 h
    rw [rpReadUvarintLoop] at h
    split at h
    · rename_i p1 s1 heq
      obtain ⟨hs1, hl1⟩ := rpRead1_limit0 _ _ _ _ _ h0 heq
      cases h
      exact ⟨hs1, hl1⟩
    · rename_i b p1 s1 heq
      obtain ⟨hs1, hl1⟩ := rpRead1_limit0 _ _ _ _ _ h0 heq
      subst hs1
      split at h
      · cases h
        exact ⟨rfl, hl1⟩
      · exact ihn _ _ _ _ _ _ _ hl1 h

theorem readUvarint_limit0 (p : rawPacket) (s : List Nat) (u : Nat)
    (p' : rawPacket) (s' : List Nat) (h0 : p.limit = 0)
    (h : p.readUvarint s = (u, p', s')) : s' = s ∧ p'.limit = 0 := by
  unfold rawPacket.readUvarint at h
  split at h
  · cases h
    exact ⟨rfl, h0⟩
  · split at h
    · rename_i x e1 p1 s1 heq
      cases h
      obtain ⟨hs1, hl1⟩ := rpLoop_limit0 9 _ _ _ _ _ _ _ h0 heq
      exact ⟨hs1, hl1⟩
    · rename_i x p1 s1 heq
      cases h
      exact rpLoop_limit0 9 _ _ _ _ _ _ _ h0 heq

/-- If the first buffered read of the uvarint loop pulls the whole limit
(as it does on a fresh packet whose size fits the buffer), the loop ends
with the source exactly past that pull and the limit spent. -/
theorem rpLoop_fresh (m : Nat) (s : List Nat) (b : Nat) (rest : List Nat)
    (hstep : rpRead1 ⟨[], m + 1, none⟩ s = (some b, ⟨rest, 0, none⟩, s.drop (m + 1))) :
    ∀ (x u : Nat) (e : Option Err) (p' : rawPacket) (s' : List Nat),
    rpReadUvarintLoop 9 x ⟨[], m + 1, none⟩ s = (u, e, p', s') →
    s' = s.drop (m + 1) ∧ p'.limit = 0 := by
  intro x u e p' s' h
  rw [rpReadUvarintLoop] at h
  split at h
  · rename_i p1 s1 heq
    rw [hstep] at heq
    simp at heq
  · rename_i b1 p1 s1 heq
    rw [hstep] at heq
    simp only [Prod.mk.injEq, Option.some.injEq] at heq
    obtain ⟨hb, hp, hs⟩ := heq
    subst hb hp hs
    split at h
    · cases h
      exact ⟨rfl, rfl⟩
    · exact rpLoop_limit0 8 _ _ _ _ _ _ _ rfl h

/-- A fresh packet view of size at most one bufio buffer pulls its whole
bounded payload from the source on the first read: a first uvarint read
from a fresh packet leaves the source exactly size bytes further on, with
the limit spent. -/
theorem fresh_readUvarint_drop (size : Nat) (s : List Nat) (u : Nat)
    (p' : rawPacket) (s' : List Nat)
    (h1 : size ≤ 4096) (h2 : size ≤ s.length)
    (h : rawPacket.readUvarint ⟨[], size, none⟩ s = (u, p', s')) :
    s' = s.drop size ∧ p'.limit = 0 := by
  cases hsz : size with
  | zero =>
    subst hsz
    have := readUvarint_limit0 _ _ _ _ _ rfl h
    simpa using this
  | succ m =>
    subst hsz
    have hpull : min bufSize (min (m + 1) s.length) = m + 1 := by
      show min 4096 (min (m + 1) s.length) = m + 1
      omega
    have htake : ∃ b rest, s.take (m + 1) = b :: rest := by
      have hlen : (s.take (m + 1)).length = m + 1 := by
        rw [List.length_take]
        omega
      cases ht : s.take (m + 1) with
      | nil =>
        rw [ht] at hlen
        simp at hlen
      | cons b rest => exact ⟨b, rest, rfl⟩
    obtain ⟨b, rest, hbr⟩ := htake
    have hstep : rpRead1 ⟨[], m + 1, none⟩ s =
        (some b, ⟨rest, 0, none⟩, s.drop (m + 1)) := by
      show (match s.take (min bufSize (min (m + 1) s.length)) with
            | [] => (none, (⟨[], m + 1, none⟩ : rawPacket), s)
            | b :: rest =>
              (some b,
               { buffered := rest,
                 limit := m + 1 - min bufSize (min (m + 1) s.length),
                 err := none },
               s.drop (min bufSize (min (m + 1) s.length)))) =
          (some b, (⟨rest, 0, none⟩ : rawPacket), s.drop (m + 1))
      rw [hpull, hbr]
      simp
    unfold rawPacket.readUvarint at h
    rw [if_neg (by simp)] at h
    split at h
    · rename_i x e p1 s1 heq
      cases h
      obtain ⟨hs2, hl2⟩ := rpLoop_fresh m s b rest hstep 0 _ _ _ _ heq
      exact ⟨hs2, hl2⟩
    · rename_i x p1 s1 heq
      cases h
      exact rpLoop_fresh m s b rest hstep 0 _ _ _ _ heq

/-- Claim C3 amended: the payload view is bounded — a downstream decoder
can never pull more than the declared size from the source (shown for the
under-reading sync-point decoder) — and when the declared size fits the
bufio buffer and the source, the under-read trailing payload bytes are
discarded as a side effect of the buffered view's prefetch, leaving the
source exactly size bytes further on.  (Decoders that perform no read at
all — the index packet — consume nothing; see the counterexample.) -/
theorem claim_C3 :
    (∀ (p : rawPacket) (s : List Nat) (r : Option syncPoint)
       (p' : rawPacket) (s' : List Nat),
        readSyncPoint p s = (r, p', s') → s.length - s'.length ≤ p.limit)
    ∧ (∀ (size : Nat) (s : List Nat) (r : Option syncPoint)
         (p' : rawPacket) (s' : List Nat), size ≤ 4096 → size ≤ s.length →
        readSyncPoint ⟨[], size, none⟩ s = (r, p', s') → s' = s.drop size) := by
  refine ⟨readSyncPoint_consume, ?_⟩
  intro size s r p' s' h1 h2 h
  unfold readSyncPoint at h
  rw [if_neg (by simp)] at h
  split at h
  rename_i gk p1 s1 heq1
  obtain ⟨hs1, hl1⟩ := fresh_readUvarint_drop _ _ _ _ _ h1 h2 heq1
  subst hs1
  split at h
  rename_i bp p2 s2 heq2
  obtain ⟨hs2, _⟩ := readUvarint_limit0 _ _ _ _ _ hl1 heq2
  cases h
  exact hs2

/-- Claim C3 witness: a sync-point packet of declared size 1 over a
two-byte source consumes exactly its one payload byte. -/
theorem claim_C3_witness :
    ([9] : List Nat) = List.drop 1 [5, 9] :=
  claim_C3.2 1 [5, 9] (some ⟨5, 0⟩) ⟨[], 0, some .eof⟩ [9]
    (by norm_num) (by norm_num) rfl

end Gonut
